import Mathlib

/-!
Shallow embedding of the autonomous pixel-war agent
(`src/agent/autonomous_agent.py`) and verification of its specification.

Network I/O is modelled by explicit outcome values (`PostResult`,
`HttpGetResult`) supplied to each operation; `random.*` draws are modelled
as explicit inputs; `asyncio.sleep` pacing is timing-only and has no
observable effect on the data model, so it is omitted. Python exceptions
are modelled with `Except PyExc`; a Python function that catches all
exceptions is a total Lean function.
-/

namespace PixelWar

/-- Board dimension, from the module-level constant `BOARD_SIZE = 100`. -/
def BOARD_SIZE : Int := 100

/-- JSON values as produced by `response.json()` in Python: a JSON `null`
body parses to Python `None`, represented here by `Json.null`. -/
inductive Json where
  | null
  | bool (b : Bool)
  | num (n : Int)
  | str (s : String)
  | arr (elems : List Json)
  | obj (fields : List (String × Json))

/-- Python truthiness of a parsed JSON value, as tested by `if board:`. -/
def Json.truthy : Json → Bool
  | .null => false
  | .bool b => b
  | .num n => n != 0
  | .str s => !s.isEmpty
  | .arr l => !l.isEmpty
  | .obj l => !l.isEmpty

/-- Python exceptions the embedded fragments can raise. -/
inductive PyExc where
  | keyError (k : String)
  | typeError
  | connectionError
deriving DecidableEq

/-- Python subscript `v[key]` with a string key: a dict lookup raises
`KeyError` on a missing key, and every non-dict value raises `TypeError`. -/
def Json.getItem : Json → String → Except PyExc Json
  | .obj fields, k =>
    match fields.lookup k with
    | some v => .ok v
    | none => .error (.keyError k)
  | _, _ => .error .typeError

/-- Outcome of one HTTP POST as seen by the caller: a response carrying a
status code, or a raised transport exception. -/
inductive PostResult where
  | response (status : Nat)
  | transportError
deriving DecidableEq

/-- Execution of `self.client.post("/api/paint", json=payload)`: yields the
response status code, or raises. -/
def post_paint : PostResult → Except PyExc Nat
  | .response s => .ok s
  | .transportError => .error .connectionError

/-- One attempted paint request, recording the arguments passed to
`paint_pixel`. -/
structure PaintCall where
  x : Int
  y : Int
  color : String
  message : Option String
deriving DecidableEq

/-- Embedding of `PixelWarAgent.paint_pixel`: the POST runs inside `try`;
on status code exactly 200 the coordinate is added to `my_pixels` and
`True` is returned; any raised exception is caught (`except Exception`),
and `False` is returned on every other path — nothing re-raises. Returns
the boolean result together with the updated `my_pixels` set. -/
def paint_pixel (resp : PostResult) (x y : Int) (owned : Finset (Int × Int)) :
    Bool × Finset (Int × Int) :=
  match post_paint resp with
  | .ok status => if status = 200 then (true, insert (x, y) owned) else (false, owned)
  | .error _ => (false, owned)

/-- Outcome of one HTTP GET: a response whose body parsed to a JSON value,
a response whose body fails to parse (`response.json()` raises), or a
raised transport exception. -/
inductive HttpGetResult where
  | success (body : Json)
  | invalidJson
  | transportError

/-- Embedding of `PixelWarAgent.get_board_state`: returns `response.json()`
on success, and Python `None` when any exception is caught. -/
def get_board_state : HttpGetResult → Json
  | .success b => b
  | .invalidJson => .null
  | .transportError => .null

/-- Embedding of `PixelWarAgent.get_recent_events`: returns
`response.json()` on success, and the empty list `[]` when any exception
is caught. -/
def get_recent_events : HttpGetResult → Json
  | .success b => b
  | .invalidJson => .arr []
  | .transportError => .arr []

/-- Pattern table of `strategy_draw_pattern`: the `patterns` dict mapping a
name to its ordered offsets, `none` for names not in the dict. -/
def patterns (name : String) : Option (List (Int × Int)) :=
  if name = "square" then
    some [(0, 0), (1, 0), (2, 0),
          (0, 1), (2, 1),
          (0, 2), (1, 2), (2, 2)]
  else if name = "cross" then
    some [(1, 0),
          (0, 1), (1, 1), (2, 1),
          (1, 2)]
  else if name = "heart" then
    some [(1, 0), (2, 0), (4, 0), (5, 0),
          (0, 1), (1, 1), (2, 1), (3, 1), (4, 1), (5, 1), (6, 1),
          (0, 2), (1, 2), (2, 2), (3, 2), (4, 2), (5, 2), (6, 2),
          (1, 3), (2, 3), (3, 3), (4, 3), (5, 3),
          (2, 4), (3, 4), (4, 4),
          (3, 5)]
  else none

/-- Bounds test `0 <= x < BOARD_SIZE and 0 <= y < BOARD_SIZE`. -/
def inBounds (x y : Int) : Bool :=
  decide (0 ≤ x) && decide (x < BOARD_SIZE) && decide (0 ≤ y) && decide (y < BOARD_SIZE)

/-- Embedding of `strategy_random_chaos`: one paint call at the drawn
coordinate with the drawn color and taunt. -/
def strategy_random_chaos (resp : PostResult) (x y : Int) (color : String)
    (taunt : Option String) (owned : Finset (Int × Int)) :
    List PaintCall × Finset (Int × Int) :=
  ([⟨x, y, color, taunt⟩], (paint_pixel resp x y owned).2)

/-- Loop body of `strategy_draw_line` over the remaining indices of
`range(length)`: one paint per index, stepping along the chosen axis.
The paint outcome of the `i`-th call is `oracle i`. -/
def lineGo (oracle : Nat → PostResult) (sx sy : Int) (direction color : String) :
    List Nat → Finset (Int × Int) → List PaintCall × Finset (Int × Int)
  | [], owned => ([], owned)
  | i :: rest, owned =>
    let x : Int := if direction = "horizontal" then sx + i else sx
    let y : Int := if direction = "horizontal" then sy else sy + i
    let r := paint_pixel (oracle i) x y owned
    let next := lineGo oracle sx sy direction color rest r.2
    (⟨x, y, color, none⟩ :: next.1, next.2)

/-- Embedding of `strategy_draw_line`: `for i in range(length)`, paint at
`(start_x + i, start_y)` when the direction is `"horizontal"`, else at
`(start_x, start_y + i)`; `range` of a non-positive length is empty. -/
def strategy_draw_line (oracle : Nat → PostResult) (sx sy : Int) (length : Int)
    (direction color : String) (owned : Finset (Int × Int)) :
    List PaintCall × Finset (Int × Int) :=
  lineGo oracle sx sy direction color (List.range length.toNat) owned

/-- Event record from `GET /api/events/recent`, with the fields the defend
strategy reads (`source`, `x`, `y`). -/
structure Event where
  source : String
  x : Int
  y : Int
deriving DecidableEq

/-- Loop body of `strategy_defend_territory`: for each event whose source
equals `"HUMAN"` and whose coordinate is in `my_pixels`, issue a reclaiming
paint with a drawn color and the fixed territory message. The `k`-th issued
paint gets outcome `oracle k` and color `colors k`. -/
def defendGo (oracle : Nat → PostResult) (colors : Nat → String) :
    List Event → Finset (Int × Int) → Nat → List PaintCall × Finset (Int × Int)
  | [], owned, _ => ([], owned)
  | e :: rest, owned, k =>
    if e.source = "HUMAN" then
      if (e.x, e.y) ∈ owned then
        let r := paint_pixel (oracle k) e.x e.y owned
        let next := defendGo oracle colors rest r.2 (k + 1)
        (⟨e.x, e.y, colors k, some "This is MY territory!"⟩ :: next.1, next.2)
      else defendGo oracle colors rest owned k
    else defendGo oracle colors rest owned k

/-- Embedding of `strategy_defend_territory`, applied to the events list
obtained from the Remote Client. -/
def strategy_defend_territory (oracle : Nat → PostResult) (colors : Nat → String)
    (events : List Event) (owned : Finset (Int × Int)) :
    List PaintCall × Finset (Int × Int) :=
  defendGo oracle colors events owned 0

/-- Loop body of `strategy_draw_pattern`: for each offset, paint at
anchor + offset when the result is in bounds, silently skip otherwise. -/
def patternGo (oracle : Nat → PostResult) (sx sy : Int) (color : String) :
    List (Int × Int) → Finset (Int × Int) → Nat → List PaintCall × Finset (Int × Int)
  | [], owned, _ => ([], owned)
  | d :: rest, owned, k =>
    if inBounds (sx + d.1) (sy + d.2) then
      let r := paint_pixel (oracle k) (sx + d.1) (sy + d.2) owned
      let next := patternGo oracle sx sy color rest r.2 (k + 1)
      (⟨sx + d.1, sy + d.2, color, none⟩ :: next.1, next.2)
    else patternGo oracle sx sy color rest owned k

/-- Embedding of `strategy_draw_pattern`: look the pattern name up in the
table; a name not present is a no-op (`if pattern in patterns`). -/
def strategy_draw_pattern (oracle : Nat → PostResult) (pattern : String)
    (sx sy : Int) (color : String) (owned : Finset (Int × Int)) :
    List PaintCall × Finset (Int × Int) :=
  match patterns pattern with
  | some offs => patternGo oracle sx sy color offs owned 0
  | none => ([], owned)

/-- Environment of one `chaos` tick: the random draws and the paint outcome. -/
structure ChaosEnv where
  x : Int
  y : Int
  color : String
  taunt : Option String
  resp : PostResult

/-- Environment of one `defend` tick: the fetched events, paint outcomes
and color draws. -/
structure DefendEnv where
  events : List Event
  oracle : Nat → PostResult
  colors : Nat → String

/-- Environment of one `pattern` tick: the drawn pattern name, anchor,
color, and paint outcomes. -/
structure PatternEnv where
  pat : String
  x : Int
  y : Int
  color : String
  oracle : Nat → PostResult

/-- Environment of one `line` tick: the drawn start, length, direction,
color, and paint outcomes. -/
structure LineEnv where
  x : Int
  y : Int
  length : Int
  direction : String
  color : String
  oracle : Nat → PostResult

/-- One tick of the main loop: the strategy selected by `random.choice`
together with the environment its execution consumes. -/
inductive TickPlan where
  | chaos (e : ChaosEnv)
  | defend (e : DefendEnv)
  | pattern (e : PatternEnv)
  | line (e : LineEnv)

/-- Name of the strategy a tick invokes. -/
def TickPlan.stratName : TickPlan → String
  | .chaos _ => "chaos"
  | .defend _ => "defend"
  | .pattern _ => "pattern"
  | .line _ => "line"

/-- Execution of one tick body of `run`, dispatching on the selected action. -/
def execTick (owned : Finset (Int × Int)) : TickPlan → List PaintCall × Finset (Int × Int)
  | .chaos e => strategy_random_chaos e.resp e.x e.y e.color e.taunt owned
  | .defend e => strategy_defend_territory e.oracle e.colors e.events owned
  | .pattern e => strategy_draw_pattern e.oracle e.pat e.x e.y e.color owned
  | .line e => strategy_draw_line e.oracle e.x e.y e.length e.direction e.color owned

/-- Running loop of `run`: invoke each planned tick in order, collecting the
names of the strategies invoked and every paint call issued. -/
def runLoop : List TickPlan → Finset (Int × Int) → List String × List PaintCall
  | [], _ => ([], [])
  | t :: rest, owned =>
    let r := execTick owned t
    let next := runLoop rest r.2
    (t.stratName :: next.1, r.1 ++ next.2)

/-- Embedding of `PixelWarAgent.run`: fetch the board once; a falsy result
prints and returns before the loop; a truthy result has `board` subscripted
at `width` and then `height` outside any handler, so a failure there
propagates out of `run`; otherwise the loop runs the planned ticks starting
from the empty `my_pixels` set of `__init__`. Yields whether the running
loop was entered, the strategy names invoked, and the paint calls issued. -/
def run (boardResp : HttpGetResult) (ticks : List TickPlan) :
    Except PyExc (Bool × List String × List PaintCall) :=
  let board := get_board_state boardResp
  if board.truthy then
    match board.getItem "width" with
    | .error e => .error e
    | .ok _ =>
      match board.getItem "height" with
      | .error e => .error e
      | .ok _ =>
        let r := runLoop ticks ∅
        .ok (true, r.1, r.2)
  else .ok (false, [], [])

/-- Whether a `run` outcome entered the running loop. -/
def enteredRunning : Except PyExc (Bool × List String × List PaintCall) → Bool
  | .ok r => r.1
  | .error _ => false

/-! Helper lemmas shared by the claim theorems. -/

/-- Helper: the updated owned set of a paint is the insertion exactly when
the call succeeded. -/
theorem paint_pixel_snd (resp : PostResult) (x y : Int) (owned : Finset (Int × Int)) :
    (paint_pixel resp x y owned).2 =
      if (paint_pixel resp x y owned).1 then insert (x, y) owned else owned := by
  cases resp with
  | response s => by_cases h : s = 200 <;> simp [paint_pixel, post_paint, h]
  | transportError => simp [paint_pixel, post_paint]

/-- Helper: a paint never removes owned coordinates. -/
theorem paint_pixel_mono (resp : PostResult) (x y : Int) (owned : Finset (Int × Int)) :
    owned ⊆ (paint_pixel resp x y owned).2 := by
  rw [paint_pixel_snd]
  split
  · exact Finset.subset_insert _ _
  · exact Finset.Subset.refl _

/-- Helper: a paint succeeds exactly when the POST returned status 200. -/
theorem paint_pixel_fst_iff (resp : PostResult) (x y : Int) (owned : Finset (Int × Int)) :
    (paint_pixel resp x y owned).1 = true ↔ resp = PostResult.response 200 := by
  cases resp with
  | response s => by_cases h : s = 200 <;> simp [paint_pixel, post_paint, h]
  | transportError => simp [paint_pixel, post_paint]

/-- Helper: painting a coordinate already owned leaves the owned set equal. -/
theorem paint_pixel_snd_of_mem (resp : PostResult) (x y : Int)
    (owned : Finset (Int × Int)) (h : (x, y) ∈ owned) :
    (paint_pixel resp x y owned).2 = owned := by
  rw [paint_pixel_snd]
  split
  · exact Finset.insert_eq_self.mpr h
  · rfl

/-- Helper: the calls issued by the line loop are one per index, stepping
along the chosen axis, independent of paint outcomes. -/
theorem lineGo_calls (oracle : Nat → PostResult) (sx sy : Int)
    (direction color : String) (idxs : List Nat) (owned : Finset (Int × Int)) :
    (lineGo oracle sx sy direction color idxs owned).1 =
      idxs.map fun i =>
        ⟨if direction = "horizontal" then sx + i else sx,
         if direction = "horizontal" then sy else sy + i, color, none⟩ := by
  induction idxs generalizing owned with
  | nil => rfl
  | cons i rest ih => simp [lineGo, ih]

/-- Helper: the line loop never removes owned coordinates. -/
theorem lineGo_mono (oracle : Nat → PostResult) (sx sy : Int)
    (direction color : String) (idxs : List Nat) (owned : Finset (Int × Int)) :
    owned ⊆ (lineGo oracle sx sy direction color idxs owned).2 := by
  induction idxs generalizing owned with
  | nil => exact Finset.Subset.refl _
  | cons i rest ih => exact (paint_pixel_mono _ _ _ _).trans (ih _)

/-- Helper: the calls issued by the pattern loop are exactly the in-bounds
offsets, in order, independent of paint outcomes. -/
theorem patternGo_calls (oracle : Nat → PostResult) (sx sy : Int) (color : String)
    (offs : List (Int × Int)) (owned : Finset (Int × Int)) (k : Nat) :
    (patternGo oracle sx sy color offs owned k).1 =
      (offs.filter fun d => inBounds (sx + d.1) (sy + d.2)).map
        fun d => ⟨sx + d.1, sy + d.2, color, none⟩ := by
  induction offs generalizing owned k with
  | nil => rfl
  | cons d rest ih =>
    cases h : inBounds (sx + d.1) (sy + d.2) <;>
      simp [patternGo, List.filter_cons, h, ih]

/-- Helper: the pattern loop never removes owned coordinates. -/
theorem patternGo_mono (oracle : Nat → PostResult) (sx sy : Int) (color : String)
    (offs : List (Int × Int)) (owned : Finset (Int × Int)) (k : Nat) :
    owned ⊆ (patternGo oracle sx sy color offs owned k).2 := by
  induction offs generalizing owned k with
  | nil => exact Finset.Subset.refl _
  | cons d rest ih =>
    cases h : inBounds (sx + d.1) (sy + d.2)
    · simpa [patternGo, h] using ih owned k
    · simpa [patternGo, h] using (paint_pixel_mono _ _ _ _).trans (ih _ _)

/-- Helper: the defend loop leaves the owned set equal, and its calls are
exactly the events tagged HUMAN at owned coordinates, in event order. -/
theorem defendGo_spec (oracle : Nat → PostResult) (colors : Nat → String)
    (events : List Event) (owned : Finset (Int × Int)) (k : Nat) :
    (defendGo oracle colors events owned k).2 = owned ∧
    (defendGo oracle colors events owned k).1.map (fun c => (c.x, c.y)) =
      (events.filter fun e => e.source == "HUMAN" && decide ((e.x, e.y) ∈ owned)).map
        fun e => (e.x, e.y) := by
  induction events generalizing owned k with
  | nil => exact ⟨rfl, rfl⟩
  | cons e rest ih =>
    by_cases hs : e.source = "HUMAN"
    · by_cases hm : (e.x, e.y) ∈ owned
      · simp only [defendGo, if_pos hs, if_pos hm,
          paint_pixel_snd_of_mem (oracle k) e.x e.y owned hm]
        obtain ⟨h2, h1⟩ := ih owned (k + 1)
        exact ⟨h2, by simp [List.filter_cons, hs, hm, h1]⟩
      · obtain ⟨h2, h1⟩ := ih owned k
        exact ⟨by simp [defendGo, hs, hm, h2],
               by simp [defendGo, List.filter_cons, hs, hm, h1]⟩
    · obtain ⟨h2, h1⟩ := ih owned k
      exact ⟨by simp [defendGo, hs, h2],
             by simp [defendGo, List.filter_cons, hs, h1]⟩

/-- Helper: whether `run` enters the running loop does not depend on the
planned ticks — it is decided once by the startup board response. -/
theorem run_gate_once (r : HttpGetResult) (t1 t2 : List TickPlan) :
    enteredRunning (run r t1) = enteredRunning (run r t2) := by
  unfold run
  by_cases h : (get_board_state r).truthy
  · simp only [if_pos h]
    cases (get_board_state r).getItem "width" with
    | error e => rfl
    | ok w =>
      cases (get_board_state r).getItem "height" with
      | error e => rfl
      | ok hgt => rfl
  · simp only [if_neg h]

/-! Claim theorems. -/

/-- Claim C1, counterexample: the "heart" pattern of the code has exactly 27
offsets, not the 29 the claim states. -/
theorem heart_not_29 :
    ((patterns "heart").getD []).length = 27 ∧
    ((patterns "heart").getD []).length ≠ 29 :=
  ⟨rfl, by decide⟩

/-- Claim C1, amended: the "heart" pattern consists of exactly 27 relative
offsets forming a glyph whose bounding box is 7 wide and 6 tall (dx in
[0,6] and dy in [0,5], with all four extremes attained). -/
theorem heart_pattern_glyph :
    (patterns "heart").isSome = true
  ∧ ((patterns "heart").getD []).length = 27
  ∧ (((patterns "heart").getD []).all fun d =>
       decide (0 ≤ d.1) && decide (d.1 ≤ 6) && decide (0 ≤ d.2) && decide (d.2 ≤ 5)) = true
  ∧ (((patterns "heart").getD []).any fun d => decide (d.1 = 0)) = true
  ∧ (((patterns "heart").getD []).any fun d => decide (d.1 = 6)) = true
  ∧ (((patterns "heart").getD []).any fun d => decide (d.2 = 0)) = true
  ∧ (((patterns "heart").getD []).any fun d => decide (d.2 = 5)) = true := by
  refine ⟨rfl, rfl, ?_, ?_, ?_, ?_, ?_⟩ <;> decide

/-- Claim C2, counterexample: status 204 is a 200-class acknowledgment, yet
`paint_pixel` returns false — success requires status exactly 200. -/
theorem paint_pixel_204_false :
    (200 : Nat) ≤ 204 ∧ (204 : Nat) < 300 ∧
    (paint_pixel (.response 204) 1 2 ∅).1 = false :=
  ⟨by decide, by decide, rfl⟩

/-- Claim C2, amended: for every response outcome, coordinates and owned
set, `paint_pixel` returns true exactly when the service acknowledged with
status exactly 200 (other 200-class statuses yield false); when the POST
raises, the exception is caught and the call returns false with the owned
set unchanged — it never propagates an exception to the calling strategy. -/
theorem paint_pixel_contract (resp : PostResult) (x y : Int) (owned : Finset (Int × Int)) :
    ((paint_pixel resp x y owned).1 = true ↔ resp = PostResult.response 200)
  ∧ ∀ e, post_paint resp = .error e → paint_pixel resp x y owned = (false, owned) := by
  refine ⟨paint_pixel_fst_iff resp x y owned, ?_⟩
  intro e he
  cases resp with
  | response s => simp [post_paint] at he
  | transportError => rfl

/-- Claim C2, witness: the contract evaluated at a raised transport error
and at a status-200 acknowledgment. -/
theorem paint_pixel_contract_witness :
    paint_pixel PostResult.transportError 0 0 ∅ = (false, ∅)
  ∧ (paint_pixel (PostResult.response 200) 0 0 ∅).1 = true :=
  ⟨(paint_pixel_contract PostResult.transportError 0 0 ∅).2 PyExc.connectionError rfl,
   (paint_pixel_contract (PostResult.response 200) 0 0 ∅).1.mpr rfl⟩

/-- Claim C3: when the single startup board fetch returns None, `run`
terminates at once with no strategy invoked and no paint call issued,
without entering the running loop; and whether the running loop is entered
is decided by the startup response alone, independent of the planned ticks
— the single startup gate. -/
theorem run_none_stops (r r2 : HttpGetResult) (ticks ticks2 : List TickPlan)
    (h : get_board_state r = Json.null) :
    run r ticks = Except.ok (false, [], [])
  ∧ enteredRunning (run r2 ticks) = enteredRunning (run r2 ticks2) := by
  refine ⟨?_, run_gate_once r2 ticks ticks2⟩
  simp [run, h, Json.truthy]

/-- Claim C3, witness: a transport failure at startup stops the agent with
an empty trace. -/
theorem run_none_stops_witness :
    run HttpGetResult.transportError [] = Except.ok (false, [], []) :=
  (run_none_stops HttpGetResult.transportError HttpGetResult.transportError [] [] rfl).1

/-- Claim C4, counterexample: a response whose body is JSON `null` makes
`get_recent_events` return Python None — not an empty sequence — so the
result is not always iterable. -/
theorem get_recent_events_none_on_null :
    get_recent_events (.success Json.null) = Json.null
  ∧ Json.null ≠ Json.arr [] :=
  ⟨rfl, fun h => Json.noConfusion h⟩

/-- Claim C4, amended: `get_recent_events` returns the empty list on a
transport failure or an unparseable body, and otherwise returns the parsed
body as-is; whenever the service honors its contract of returning a JSON
array, the result is that array and never None. -/
theorem get_recent_events_contract (r : HttpGetResult) :
    get_recent_events HttpGetResult.transportError = Json.arr []
  ∧ get_recent_events HttpGetResult.invalidJson = Json.arr []
  ∧ ∀ l, r = HttpGetResult.success (Json.arr l) →
      get_recent_events r = Json.arr l ∧ get_recent_events r ≠ Json.null := by
  refine ⟨rfl, rfl, ?_⟩
  rintro l rfl
  exact ⟨rfl, fun h => Json.noConfusion h⟩

/-- Claim C4, witness: the contract evaluated at an empty-array response. -/
theorem get_recent_events_contract_witness :
    get_recent_events (HttpGetResult.success (Json.arr [])) = Json.arr [] :=
  ((get_recent_events_contract (HttpGetResult.success (Json.arr []))).2.2 [] rfl).1

/-- Claim C5: for every events list and owned set, the reclaiming paint
calls of defend-territory are exactly — same coordinates, same order — the
events whose source is the non-agent tag HUMAN and whose coordinate is in
the Owned-Pixel Set; events at never-painted coordinates yield no call. -/
theorem defend_territory_calls (oracle : Nat → PostResult) (colors : Nat → String)
    (events : List Event) (owned : Finset (Int × Int)) :
    (strategy_defend_territory oracle colors events owned).1.map (fun c => (c.x, c.y)) =
      (events.filter fun e => e.source == "HUMAN" && decide ((e.x, e.y) ∈ owned)).map
        fun e => (e.x, e.y) :=
  (defendGo_spec oracle colors events owned 0).2

/-- Claim C6: every paint call attempted by draw-pattern is within board
bounds, out-of-bounds offsets being silently skipped, for every pattern
name, anchor and color; in particular the square pattern anchored at
(99,99) attempts exactly the single in-bounds coordinate (99,99). -/
theorem draw_pattern_in_bounds (oracle : Nat → PostResult) (pat : String)
    (sx sy : Int) (color : String) (owned : Finset (Int × Int)) :
    ((strategy_draw_pattern oracle pat sx sy color owned).1.all fun c => inBounds c.x c.y) = true
  ∧ (strategy_draw_pattern oracle "square" 99 99 color owned).1.map (fun c => (c.x, c.y)) =
      [((99 : Int), (99 : Int))] := by
  constructor
  · rcases hp : patterns pat with _ | offs
    · simp [strategy_draw_pattern, hp]
    · simp only [strategy_draw_pattern, hp]
      rw [patternGo_calls, List.all_eq_true]
      intro c hc
      simp only [List.mem_map] at hc
      obtain ⟨d, hd, rfl⟩ := hc
      exact (List.mem_filter.mp hd).2
  · have hsq : patterns "square" =
        some [(0, 0), (1, 0), (2, 0), (0, 1), (2, 1), (0, 2), (1, 2), (2, 2)] := rfl
    simp only [strategy_draw_pattern, hsq, patternGo_calls]
    rfl

/-- Claim C7: draw-pattern with pattern "cross" anchored at (10,10)
attempts exactly (11,10),(10,11),(11,11),(12,11),(11,12), in that order,
all within bounds of the 100 by 100 board. -/
theorem draw_pattern_cross_10_10 (oracle : Nat → PostResult) (color : String)
    (owned : Finset (Int × Int)) :
    (strategy_draw_pattern oracle "cross" 10 10 color owned).1.map (fun c => (c.x, c.y)) =
      [((11 : Int), (10 : Int)), (10, 11), (11, 11), (12, 11), (11, 12)]
  ∧ ([((11 : Int), (10 : Int)), (10, 11), (11, 11), (12, 11), (11, 12)].all
       fun p => inBounds p.1 p.2) = true := by
  constructor
  · have hc : patterns "cross" = some [(1, 0), (0, 1), (1, 1), (2, 1), (1, 2)] := rfl
    simp only [strategy_draw_pattern, hc, patternGo_calls]
    rfl
  · decide

/-- Claim C8: draw-line from (5,5) with length 4, horizontal, paints
exactly (5,5),(6,5),(7,5),(8,5) in order; in general, for every length ≥ 0
it issues exactly that many sequential calls, the `i`-th stepping the
chosen coordinate component by `i` from the start. -/
theorem draw_line_calls (oracle : Nat → PostResult) (sx sy : Int) (len : Int)
    (direction color : String) (owned : Finset (Int × Int)) (h : 0 ≤ len) :
    (strategy_draw_line oracle 5 5 4 "horizontal" color owned).1.map (fun c => (c.x, c.y)) =
      [((5 : Int), (5 : Int)), (6, 5), (7, 5), (8, 5)]
  ∧ ((strategy_draw_line oracle sx sy len direction color owned).1.length : Int) = len
  ∧ (strategy_draw_line oracle sx sy len direction color owned).1.map (fun c => (c.x, c.y)) =
      (List.range len.toNat).map
        fun (i : Nat) =>
          if direction = "horizontal" then (sx + (i : Int), sy) else (sx, sy + (i : Int)) := by
  refine ⟨?_, ?_, ?_⟩
  · simp only [strategy_draw_line, lineGo_calls]
    rfl
  · simp only [strategy_draw_line, lineGo_calls, List.length_map, List.length_range]
    exact Int.toNat_of_nonneg h
  · simp only [strategy_draw_line, lineGo_calls, List.map_map]
    congr 1
    funext i
    by_cases hd : direction = "horizontal" <;> simp [hd, Function.comp]

/-- Claim C8, witness: the line contract evaluated at start (5,5), length
4, horizontal. -/
theorem draw_line_calls_witness :
    (strategy_draw_line (fun _ => PostResult.transportError) 5 5 4 "horizontal" "#FF0000" ∅).1.map
        (fun c => (c.x, c.y)) = [((5 : Int), (5 : Int)), (6, 5), (7, 5), (8, 5)]
  ∧ ((strategy_draw_line (fun _ => PostResult.transportError) 5 5 4 "horizontal" "#FF0000" ∅).1.length : Int) = 4 :=
  ⟨(draw_line_calls (fun _ => PostResult.transportError) 5 5 4 "horizontal" "#FF0000" ∅ (by decide)).1,
   (draw_line_calls (fun _ => PostResult.transportError) 5 5 4 "horizontal" "#FF0000" ∅ (by decide)).2.1⟩

/-- Claim C9: the Owned-Pixel Set grows monotonically — `paint_pixel` adds
exactly the painted coordinate when and only when the call succeeds, and
each of the four strategies leaves the prior owned set included in the
resulting one; no operation removes a coordinate. -/
theorem owned_set_monotone (resp cresp : PostResult) (x y : Int) (owned : Finset (Int × Int))
    (cx cy : Int) (ccol : String) (taunt : Option String)
    (oracle : Nat → PostResult) (colors : Nat → String) (events : List Event)
    (lx ly : Int) (len : Int) (dir lcol : String)
    (pat : String) (px py : Int) (pcol : String) :
    (paint_pixel resp x y owned).2 =
        (if (paint_pixel resp x y owned).1 then insert (x, y) owned else owned)
  ∧ owned ⊆ (paint_pixel resp x y owned).2
  ∧ owned ⊆ (strategy_random_chaos cresp cx cy ccol taunt owned).2
  ∧ owned ⊆ (strategy_draw_line oracle lx ly len dir lcol owned).2
  ∧ owned ⊆ (strategy_draw_pattern oracle pat px py pcol owned).2
  ∧ owned ⊆ (strategy_defend_territory oracle colors events owned).2 := by
  refine ⟨paint_pixel_snd resp x y owned, paint_pixel_mono resp x y owned,
    paint_pixel_mono cresp cx cy owned, lineGo_mono oracle lx ly dir lcol _ owned, ?_, ?_⟩
  · rcases hp : patterns pat with _ | offs
    · simp [strategy_draw_pattern, hp]
    · simp only [strategy_draw_pattern, hp]
      exact patternGo_mono oracle px py pcol offs owned 0
  · show owned ⊆ (defendGo oracle colors events owned 0).2
    rw [(defendGo_spec oracle colors events owned 0).1]

/-- Claim C10: a truthy startup board object lacking a `width` or `height`
key makes `run` raise an uncaught KeyError before the running loop begins —
the same error for every planned tick list, since the tick-level recovery
does not cover the startup access. -/
theorem run_malformed_board (fields : List (String × Json)) (ticks : List TickPlan)
    (htruthy : (Json.obj fields).truthy = true)
    (hmiss : fields.lookup "width" = none ∨ fields.lookup "height" = none) :
    (∃ k, run (.success (.obj fields)) ticks = .error (.keyError k))
  ∧ run (.success (.obj fields)) ticks = run (.success (.obj fields)) [] := by
  have key : ∀ t : List TickPlan, ∃ k,
      run (.success (.obj fields)) t = .error (.keyError k) ∧
      run (.success (.obj fields)) [] = .error (.keyError k) := by
    intro t
    rcases hw : fields.lookup "width" with _ | w
    · exact ⟨"width", by simp [run, get_board_state, htruthy, Json.getItem, hw],
                      by simp [run, get_board_state, htruthy, Json.getItem, hw]⟩
    · rcases hh : fields.lookup "height" with _ | hv
      · exact ⟨"height", by simp [run, get_board_state, htruthy, Json.getItem, hw, hh],
                         by simp [run, get_board_state, htruthy, Json.getItem, hw, hh]⟩
      · rcases hmiss with hm | hm
        · rw [hw] at hm; cases hm
        · rw [hh] at hm; cases hm
  obtain ⟨k, hk1, hk2⟩ := key ticks
  exact ⟨⟨k, hk1⟩, hk1.trans hk2.symm⟩

/-- Claim C10, witness: a board object with only an unrelated field crashes
the startup with a KeyError. -/
theorem run_malformed_board_witness :
    ∃ k, run (.success (.obj [("foo", Json.num 1)])) [] = .error (.keyError k) :=
  (run_malformed_board [("foo", Json.num 1)] [] rfl (Or.inl rfl)).1

end PixelWar
